import Mathlib

/-!
Shallow embedding of the watermark compositing engine of this repository
(`src/watermark_engine.py`), together with theorems settling the frozen
claims about it.

Modelling conventions:
* Python integers are `Int`; Python floats are modelled as exact
  rationals `ℚ` (every literal appearing in the engine, such as `0.01`,
  `0.5` or `360`, is taken exactly).
* `int(x)` on a float is truncation toward zero (`pyint`); `x % m` on
  floats keeps the sign of the divisor (`pyfmod`), as in Python.
* PIL raster operations (resize, rotate, alpha_composite, text
  rasterization, ...) are external library calls; they are abstracted as
  the fields of a `PILOps` record.  The engine's own arithmetic (sizes,
  clamps, lookup tables, positions, branch structure) is translated
  directly from the source.  The only contract assumed about PIL is the
  documented one that `Image.resize` returns an image of the requested
  size (`resize_size`), used for the resize-scenario claim.
* A Python call that mutates its receiver in place (`alpha_composite`,
  `putalpha`) is translated as a rebinding of the receiver variable.
-/

namespace WatermarkEngine

/-- Source `clamp(v, lo, hi) = max(lo, min(hi, v))` (src/watermark_engine.py
lines 9-10); the Python function is polymorphic, so it is stated over any
linear order and used at `Int` and at `ℚ`. -/
def clamp {α : Type} [LinearOrder α] (v lo hi : α) : α := max lo (min hi v)

/-- Python `int(x)` applied to a float: truncation toward zero. -/
def pyint (q : ℚ) : Int := if 0 ≤ q then ⌊q⌋ else ⌈q⌉

/-- Python float modulo `a % m` (result carries the sign of the divisor):
`a - m * floor (a / m)`.  The engine only uses it with `m = 360`. -/
def pyfmod (a m : ℚ) : ℚ := a - m * (⌊a / m⌋ : ℤ)

/-- An RGBA color, a 4-tuple of Python ints. -/
structure Color where
  r : Int
  g : Int
  b : Int
  a : Int
deriving DecidableEq, Repr

/-- A PIL image, abstracted: size, mode string, opaque pixel payload. -/
structure Image where
  width : Int
  height : Int
  mode : String
  data : List Int
deriving DecidableEq, Repr

/-- Nine-grid fractional anchors, `PRESET_POSITIONS` (lines 19-29). -/
def presetLookup : String → Option (ℚ × ℚ)
  | "top_left" => some (0, 0)
  | "top_center" => some (1/2, 0)
  | "top_right" => some (1, 0)
  | "center_left" => some (0, 1/2)
  | "center" => some (1/2, 1/2)
  | "center_right" => some (1, 1/2)
  | "bottom_left" => some (0, 1)
  | "bottom_center" => some (1/2, 1)
  | "bottom_right" => some (1, 1)
  | _ => none

/-- The nine preset keys, in source order. -/
def ninePresetKeys : List String :=
  ["top_left", "top_center", "top_right", "center_left", "center",
   "center_right", "bottom_left", "bottom_center", "bottom_right"]

/-- One axis of the preset branch of `calc_position` (lines 337-348): the
`x_candidates`/`y_candidates` dict lookup keyed by the fractional anchor,
defaulting to the centered coordinate `int((b - o) / 2)`. -/
def presetCoord (b o m : Int) (p : ℚ) : Int :=
  if p = 0 then m
  else if p = 1/2 then pyint (((b : ℚ) - (o : ℚ)) / 2)
  else if p = 1 then b - o - m
  else pyint (((b : ℚ) - (o : ℚ)) / 2)

/-- `calc_position` (lines 315-352): manual offsets are clamped into the
margin band, otherwise a nine-grid preset (unknown presets and `None`
fall back to center). -/
def calc_position (base_size overlay_size : Int × Int) (preset_key : Option String)
    (manual_pos_px : Option (Int × Int)) (margin : Int × Int) : Int × Int :=
  match manual_pos_px with
  | some mp =>
      (clamp mp.1 margin.1 (max 0 (base_size.1 - overlay_size.1 - margin.1)),
       clamp mp.2 margin.2 (max 0 (base_size.2 - overlay_size.2 - margin.2)))
  | none =>
      match preset_key.bind presetLookup with
      | some pq =>
          (presetCoord base_size.1 overlay_size.1 margin.1 pq.1,
           presetCoord base_size.2 overlay_size.2 margin.2 pq.2)
      | none =>
          (pyint (((base_size.1 : ℚ) - (overlay_size.1 : ℚ)) / 2),
           pyint (((base_size.2 : ℚ) - (overlay_size.2 : ℚ)) / 2))

/-- The opacity lookup table of `ImageEnhanceBrightness.enhance`
(lines 287-296): `lut[i] = int(clamp(i * factor, 0, 255))`. -/
def enhanceLut (factor : ℚ) (i : ℕ) : Int :=
  pyint (clamp ((i : ℚ) * factor) 0 255)

section PyintLemmas

lemma pyint_of_nonneg {q : ℚ} (h : 0 ≤ q) : pyint q = ⌊q⌋ := by
  simp [pyint, h]

lemma le_pyint {n : Int} {q : ℚ} (h : (n : ℚ) ≤ q) : n ≤ pyint q := by
  unfold pyint
  split_ifs with h0
  · exact Int.le_floor.mpr h
  · exact_mod_cast h.trans (Int.le_ceil q)

lemma pyint_le {n : Int} {q : ℚ} (h : q ≤ (n : ℚ)) : pyint q ≤ n := by
  unfold pyint
  split_ifs with h0
  · have := Int.floor_le_floor h
    simpa using this
  · exact Int.ceil_le.mpr h

lemma pyint_intCast (n : Int) : pyint (n : ℚ) = n := by
  rcases le_or_lt 0 (n : ℚ) with h | h
  · rw [pyint_of_nonneg h, Int.floor_intCast]
  · unfold pyint
    rw [if_neg (not_le.mpr h), Int.ceil_intCast]

end PyintLemmas

section PresetBounds

/-- Every candidate coordinate of the preset branch stays in the margin
band once the overlay fits: `m ≤ x` and `x + o ≤ b - m`. -/
lemma presetCoord_in_band (b o m : Int) (p : ℚ) (h : o + 2 * m ≤ b) :
    m ≤ presetCoord b o m p ∧ presetCoord b o m p + o ≤ b - m := by
  have hcast : (o : ℚ) + 2 * (m : ℚ) ≤ (b : ℚ) := by exact_mod_cast h
  have hcenter : m ≤ pyint (((b : ℚ) - (o : ℚ)) / 2) ∧
      pyint (((b : ℚ) - (o : ℚ)) / 2) + o ≤ b - m := by
    constructor
    · exact le_pyint (by linarith)
    · have hle : pyint (((b : ℚ) - (o : ℚ)) / 2) ≤ b - m - o :=
        pyint_le (by push_cast; linarith)
      omega
  unfold presetCoord
  split_ifs with h0 hhalf h1
  · exact ⟨le_refl m, by omega⟩
  · exact hcenter
  · exact ⟨by omega, by omega⟩
  · exact hcenter

end PresetBounds

/-- The argument record of `compose_text_watermark` (lines 186-197). -/
structure TextArgs where
  text : String
  font_family : Option String
  font_size : Int
  color : Color
  stroke_width : Int
  stroke : Option Color
  shadow_offset : Int × Int
  shadow : Option Color
  bold : Bool
  italic : Bool
deriving DecidableEq, Repr

/-- Abstraction of the external PIL library calls made by the engine.
Each field is one library primitive; `resize_size` is the one documented
PIL contract the proofs rely on (`Image.resize` returns an image of the
requested size). -/
structure PILOps where
  convertRGBA : Image → Image
  copyImg : Image → Image
  resizeImg : Image → Int × Int → Image
  rotateExpand : Image → ℚ → Image
  alphaCompositeInto : Image → Image → Int × Int → Image
  openRGBA : String → Image
  fileExists : String → Bool
  renderText : TextArgs → Image
  splitAlphaBand : Image → Image
  pointMap : Image → (ℕ → Int) → Image
  putAlphaBand : Image → Image → Image
  resize_size : ∀ i s, (resizeImg i s).width = s.1 ∧ (resizeImg i s).height = s.2

/-- One `draw.text` call issued by `compose_text_watermark`: its offset
relative to the centered text origin, fill color, stroke width and stroke
fill. -/
structure DrawOp where
  isShadow : Bool
  offset : Int × Int
  fill : Color
  strokeWidth : Int
  strokeFill : Option Color
deriving DecidableEq, Repr

/-- The settings mapping consumed by `apply_watermark` (lines 355-375);
absent keys are `none` and the source's `.get` defaults are applied at
the access sites, as in the source. -/
structure Settings where
  type : Option String := none
  opacity : Option ℚ := none
  rotation_deg : Option ℚ := none
  position_preset : Option String := none
  manual_pos_px : Option (Int × Int) := none
  margin : Option (Int × Int) := none
  text : Option String := none
  font_family : Option String := none
  font_size : Option Int := none
  color_rgba : Option Color := none
  stroke_width : Option Int := none
  stroke_rgba : Option Color := none
  shadow_offset : Option (Int × Int) := none
  shadow_rgba : Option Color := none
  font_bold : Option Bool := none
  font_italic : Option Bool := none
  wm_image_path : Option String := none
  wm_scale : Option ℚ := none
deriving DecidableEq, Repr

/-- The resize options dict of `apply_resize` (lines 161-165). -/
structure ResizeOpts where
  width : Option Int := none
  height : Option Int := none
  percent : Option ℚ := none
deriving DecidableEq, Repr

/-- The export options dict of `export_image` (lines 444-450).  A `none`
`resize` models an absent or empty resize dict (both falsy in Python). -/
structure ExportOpts where
  format : Option String := none
  quality : Option Int := none
  resize : Option ResizeOpts := none

/-- Python truthiness of an optional int (`None` and `0` are falsy). -/
def truthyI : Option Int → Bool
  | some n => decide (n ≠ 0)
  | none => false

/-- `rotate_image_rgba` (lines 299-305): identity when the angle is a
multiple of 360, otherwise the PIL bicubic expanding rotation. -/
def rotate_image_rgba (P : PILOps) (img : Image) (angle_deg : ℚ) : Image :=
  if pyfmod angle_deg 360 = 0 then img else P.rotateExpand img angle_deg

/-- Shadow `draw.text` calls of `compose_text_watermark` (lines 242-254):
emitted only when a shadow color is supplied and the offset is nonzero;
its stroke is filled with the shadow color when no stroke color exists. -/
def shadowOpsOf (args : TextArgs) : List DrawOp :=
  match args.shadow with
  | some sh =>
      if args.shadow_offset ≠ (0, 0) then
        [{ isShadow := true, offset := args.shadow_offset, fill := sh,
           strokeWidth := max 0 (min args.stroke_width 20),
           strokeFill := some (match args.stroke with | none => sh | some st => st) }]
      else []
  | none => []

/-- The main `draw.text` call of `compose_text_watermark` (lines 256-264):
stroked with the stroke color when a positive stroke width and a stroke
color are both present, plain otherwise. -/
def mainOpOf (args : TextArgs) : DrawOp :=
  match args.stroke with
  | some st =>
      if 0 < max 0 (min args.stroke_width 20) then
        { isShadow := false, offset := (0, 0), fill := args.color,
          strokeWidth := max 0 (min args.stroke_width 20), strokeFill := some st }
      else
        { isShadow := false, offset := (0, 0), fill := args.color, strokeWidth := 0,
          strokeFill := none }
  | none =>
      { isShadow := false, offset := (0, 0), fill := args.color, strokeWidth := 0,
        strokeFill := none }

/-- The `draw.text` calls of `compose_text_watermark`, back to front:
shadow run first (when requested), then the main run. -/
def composeTextDrawOps (args : TextArgs) : List DrawOp :=
  shadowOpsOf args ++ [mainOpOf args]

/-- The alpha contributed by the fill part (`part = false`) or the stroke
part (`part = true`) of one draw call, for a pixel fully covered by that
part; `none` when the call draws no such part. -/
def opPartAlpha (op : DrawOp) (part : Bool) : Option Int :=
  if part then
    if 0 < op.strokeWidth then op.strokeFill.map Color.a else none
  else some op.fill.a

/-- The text-path argument assembly of `apply_watermark` (lines 386-410):
the fill alpha is replaced by `int(255 * opacity)`; stroke and shadow
colors are forwarded from the settings unchanged. -/
def textWatermarkArgs (s : Settings) : TextArgs :=
  let opacity := clamp (s.opacity.getD 1) 0 1
  let c := s.color_rgba.getD ⟨255, 255, 255, pyint (255 * opacity)⟩
  { text := s.text.getD "",
    font_family := s.font_family,
    font_size := s.font_size.getD 32,
    color := ⟨c.r, c.g, c.b, pyint (255 * opacity)⟩,
    stroke_width := s.stroke_width.getD 0,
    stroke := s.stroke_rgba,
    shadow_offset := s.shadow_offset.getD (0, 0),
    shadow := s.shadow_rgba,
    bold := s.font_bold.getD false,
    italic := s.font_italic.getD false }

/-- Path A of opacity application: the text path's pre-multiplication of
the fill alpha before rendering, i.e. the draw calls issued after the
fill alpha has been replaced by `int(255 * o)` (line 403). -/
def pathA_ops (args : TextArgs) (o : ℚ) : List DrawOp :=
  composeTextDrawOps
    { args with color := ⟨args.color.r, args.color.g, args.color.b, pyint (255 * o)⟩ }

/-- Path B of opacity application: render at the supplied colors, then
scale the canvas alpha uniformly through the opacity lookup table, as the
image path does (lines 420-423). -/
def pathB_alpha (o : ℚ) (a : Int) : Int := enhanceLut o a.toNat

/-- The color-premultiplied argument record used by path A. -/
def premultColor (args : TextArgs) (o : ℚ) : TextArgs :=
  { args with color := ⟨args.color.r, args.color.g, args.color.b, pyint (255 * o)⟩ }

/-- Lines 381-384 of `apply_watermark`: a manual offset given together
with a truthy positive preview scale factor is divided by the factor and
truncated; otherwise it is used as-is. -/
def resolvedManual (s : Settings) (psf : Option ℚ) : Option (Int × Int) :=
  match s.manual_pos_px, psf with
  | some mp, some σ =>
      if 0 < σ then some (pyint ((mp.1 : ℚ) / σ), pyint ((mp.2 : ℚ) / σ))
      else some mp
  | m, _ => m

/-- The text watermark canvas: `compose_text_watermark` rasterized by
PIL from the draw calls. -/
def textWm (P : PILOps) (s : Settings) : Image :=
  P.renderText (textWatermarkArgs s)

/-- The image-watermark preparation inlined in `apply_watermark`
(lines 415-423): open, clamp the scale to `0.01`, resize, and when
`opacity < 1` remap the alpha band through the opacity lookup table. -/
def imageWm (P : PILOps) (s : Settings) (p : String) : Image :=
  let opacity := clamp (s.opacity.getD 1) 0 1
  let wm := P.openRGBA p
  let scale := max (1/100) (s.wm_scale.getD 1)
  let wm := P.resizeImg wm
    (max 1 (pyint ((wm.width : ℚ) * scale)), max 1 (pyint ((wm.height : ℚ) * scale)))
  if opacity < 1 then
    P.putAlphaBand wm (P.pointMap (P.splitAlphaBand wm) (enhanceLut opacity))
  else wm

/-- `compose_image_watermark` (lines 269-284), the standalone preparer
with the same scale clamp and alpha-band opacity remap. -/
def compose_image_watermark (P : PILOps) (wm_img : Image) (scale opacity : ℚ) : Image :=
  let scale := max (1/100) scale
  let wm := P.resizeImg wm_img
    (max 1 (pyint ((wm_img.width : ℚ) * scale)), max 1 (pyint ((wm_img.height : ℚ) * scale)))
  if opacity < 1 then
    P.putAlphaBand wm (P.pointMap (P.splitAlphaBand wm) (enhanceLut opacity))
  else wm

/-- Observable trace of one `apply_watermark` call: the caller's base
image after the call (the source never rebinds or mutates `base_img`; the
receiver of the one mutating call is a copy), the returned image, the
manual offset after preview-scale conversion, the position handed to the
compositor, and the text-renderer arguments when on the text path. -/
structure AWTrace where
  baseAfter : Image
  result : Image
  manualResolved : Option (Int × Int)
  posUsed : Option (Int × Int)
  textArgs : Option TextArgs

/-- The rotation guard of `apply_watermark` (lines 426-427): the rotation
module is invoked only when the angle is not a multiple of 360. -/
def rotStep (P : PILOps) (angle_deg : ℚ) (wm : Image) : Image :=
  if pyfmod angle_deg 360 ≠ 0 then rotate_image_rgba P wm angle_deg else wm

/-- Lines 425-435 of `apply_watermark`, shared by both branches: rotate
when the angle is not a multiple of 360, resolve the position, and
alpha-composite the watermark into a copy of the RGBA base. -/
def finishTrace (P : PILOps) (base_img img wm0 : Image) (ta : Option TextArgs)
    (s : Settings) (psf : Option ℚ) : AWTrace :=
  let wm := rotStep P (s.rotation_deg.getD 0) wm0
  let pos := calc_position (img.width, img.height) (wm.width, wm.height)
    s.position_preset (resolvedManual s psf) (s.margin.getD (10, 10))
  { baseAfter := base_img,
    result := P.alphaCompositeInto (P.copyImg img) wm pos,
    manualResolved := resolvedManual s psf,
    posUsed := some pos,
    textArgs := ta }

/-- The early return of the image branch (lines 413-414): a missing or
nonexistent watermark path returns the RGBA-converted base unchanged. -/
def earlyTrace (base_img img : Image) (s : Settings) (psf : Option ℚ) : AWTrace :=
  { baseAfter := base_img,
    result := img,
    manualResolved := resolvedManual s psf,
    posUsed := none,
    textArgs := none }

/-- `apply_watermark` (lines 355-435), instrumented with the trace.  The
source binds `img = base_img.convert("RGBA")` once; the pure conversion is
inlined at its use sites here. -/
def applyWatermarkTrace (P : PILOps) (base_img : Image) (s : Settings)
    (psf : Option ℚ) : AWTrace :=
  if s.type.getD "text" = "text" then
    finishTrace P base_img (P.convertRGBA base_img) (textWm P s)
      (some (textWatermarkArgs s)) s psf
  else
    match s.wm_image_path with
    | none => earlyTrace base_img (P.convertRGBA base_img) s psf
    | some p =>
        if p = "" ∨ P.fileExists p = false then
          earlyTrace base_img (P.convertRGBA base_img) s psf
        else finishTrace P base_img (P.convertRGBA base_img) (imageWm P s p) none s psf

/-- `apply_watermark`'s return value. -/
def apply_watermark (P : PILOps) (base_img : Image) (s : Settings)
    (psf : Option ℚ) : Image :=
  (applyWatermarkTrace P base_img s psf).result

/-- The width/height branches of `apply_resize` (lines 173-183), reached
when `percent` is falsy; a single truthy dimension derives the other one
preserving aspect ratio. -/
def apply_resize_wh (P : PILOps) (img : Image) (ro : ResizeOpts) : Image :=
  let w := ro.width.getD 0
  let h := ro.height.getD 0
  if truthyI ro.width && truthyI ro.height then P.resizeImg img (w, h)
  else if truthyI ro.width then
    P.resizeImg img (w, max 1 (pyint ((img.height : ℚ) * ((w : ℚ) / (img.width : ℚ)))))
  else if truthyI ro.height then
    P.resizeImg img (max 1 (pyint ((img.width : ℚ) * ((h : ℚ) / (img.height : ℚ)))), h)
  else img

/-- `apply_resize` (lines 161-183): a truthy `percent` wins, is clamped
below by `0.01`, and scales both axes with truncation (floored at 1). -/
def apply_resize (P : PILOps) (img : Image) (ro : ResizeOpts) : Image :=
  match ro.percent with
  | some p =>
      if p ≠ 0 then
        let p := max (1/100) p
        P.resizeImg img
          (max 1 (pyint ((img.width : ℚ) * p)), max 1 (pyint ((img.height : ℚ) * p)))
      else apply_resize_wh P img ro
  | none => apply_resize_wh P img ro

/-- Trace of `export_image` (lines 438-455): compositing first, then the
optional resize applied to the composed result. -/
structure ExportTrace where
  baseAfter : Image
  result : Image

/-- `export_image` (lines 438-455), instrumented with the base image's
state after the call. -/
def exportImageTrace (P : PILOps) (base_img : Image) (s : Settings)
    (eo : ExportOpts) (psf : Option ℚ) : ExportTrace :=
  let t := applyWatermarkTrace P base_img s psf
  match eo.resize with
  | some ro => { baseAfter := t.baseAfter, result := apply_resize P t.result ro }
  | none => { baseAfter := t.baseAfter, result := t.result }

/-- `export_image`'s return value. -/
def export_image (P : PILOps) (base_img : Image) (s : Settings)
    (eo : ExportOpts) (psf : Option ℚ) : Image :=
  (exportImageTrace P base_img s eo psf).result

/-- A concrete, trivially lawful implementation of the PIL primitives,
used to evaluate the engine at concrete inputs. -/
def modelOps : PILOps where
  convertRGBA i := { i with mode := "RGBA" }
  copyImg i := i
  resizeImg i s := { i with width := s.1, height := s.2 }
  rotateExpand i _ := i
  alphaCompositeInto b _ _ := b
  openRGBA _ := { width := 1, height := 1, mode := "RGBA", data := [] }
  fileExists _ := false
  renderText _ := { width := 50, height := 20, mode := "RGBA", data := [] }
  splitAlphaBand i := i
  pointMap i _ := i
  putAlphaBand i _ := i
  resize_size _ _ := ⟨rfl, rfl⟩

/-- A concrete base image used to evaluate the engine. -/
def demoImg : Image := { width := 640, height := 480, mode := "RGB", data := [7] }

/-- A concrete 1000 by 800 composited image for the resize scenario. -/
def demo1000 : Image := { width := 1000, height := 800, mode := "RGBA", data := [3] }

/-- Concrete text-render arguments with a stroke, exercising the two
opacity-application paths at a stroke-covered pixel. -/
def argsCex : TextArgs :=
  { text := "TEST", font_family := none, font_size := 32,
    color := ⟨255, 255, 255, 255⟩, stroke_width := 2, stroke := some ⟨0, 0, 0, 255⟩,
    shadow_offset := (0, 0), shadow := none, bold := false, italic := false }

/-- Concrete text-watermark settings with stroke and shadow. -/
def sText : Settings :=
  { type := some "text", opacity := some (1/2), text := some "TEST",
    color_rgba := some ⟨255, 255, 255, 40⟩, stroke_width := some 2,
    stroke_rgba := some ⟨0, 0, 0, 200⟩, shadow_offset := some (2, 2),
    shadow_rgba := some ⟨5, 5, 5, 210⟩ }

/-- Concrete settings carrying a manual offset in preview coordinates. -/
def sManual : Settings := { manual_pos_px := some (101, 51) }

/-- Concrete image-watermark settings whose watermark path is absent. -/
def sImageMissing : Settings := { type := some "image" }

section HelperLemmas

lemma clamp_idem (v lo hi : Int) : clamp (clamp v lo hi) lo hi = clamp v lo hi := by
  unfold clamp
  omega

lemma pyint_eq {q : ℚ} {n : Int} (h0 : 0 ≤ q) (h1 : (n : ℚ) ≤ q) (h2 : q < n + 1) :
    pyint q = n := by
  rw [pyint_of_nonneg h0]
  exact Int.floor_eq_iff.mpr ⟨h1, h2⟩

lemma premultColor_stroke (args : TextArgs) (o : ℚ) :
    (premultColor args o).stroke = args.stroke := rfl

lemma premultColor_stroke_width (args : TextArgs) (o : ℚ) :
    (premultColor args o).stroke_width = args.stroke_width := rfl

lemma premultColor_shadow (args : TextArgs) (o : ℚ) :
    (premultColor args o).shadow = args.shadow := rfl

lemma premultColor_shadow_offset (args : TextArgs) (o : ℚ) :
    (premultColor args o).shadow_offset = args.shadow_offset := rfl

lemma premultColor_color_a (args : TextArgs) (o : ℚ) :
    (premultColor args o).color.a = pyint (255 * o) := rfl

lemma mainOpOf_fill (args : TextArgs) : (mainOpOf args).fill = args.color := by
  unfold mainOpOf
  rcases args.stroke with _ | st
  · rfl
  · dsimp only
    split <;> rfl

lemma mainOpOf_isShadow (args : TextArgs) : (mainOpOf args).isShadow = false := by
  unfold mainOpOf
  rcases args.stroke with _ | st
  · rfl
  · dsimp only
    split <;> rfl

lemma applyWatermarkTrace_baseAfter (P : PILOps) (base_img : Image) (s : Settings)
    (psf : Option ℚ) : (applyWatermarkTrace P base_img s psf).baseAfter = base_img := by
  unfold applyWatermarkTrace
  split
  · rfl
  · split
    · rfl
    · split <;> rfl

lemma applyWatermarkTrace_manualResolved (P : PILOps) (base_img : Image) (s : Settings)
    (psf : Option ℚ) :
    (applyWatermarkTrace P base_img s psf).manualResolved = resolvedManual s psf := by
  unfold applyWatermarkTrace
  split
  · rfl
  · split
    · rfl
    · split <;> rfl

lemma calc_position_preset_eq (bw bh ow oh mx my : Int) (k : String) (pq : ℚ × ℚ)
    (hl : presetLookup k = some pq) :
    calc_position (bw, bh) (ow, oh) (some k) none (mx, my)
      = (presetCoord bw ow mx pq.1, presetCoord bh oh my pq.2) := by
  unfold calc_position
  rw [Option.some_bind, hl]

lemma mainOpOf_strokeFill (args : TextArgs) :
    (mainOpOf args).strokeFill =
      (match args.stroke with
        | some st => if 0 < max 0 (min args.stroke_width 20) then some st else none
        | none => none) := by
  unfold mainOpOf
  rcases args.stroke with _ | st
  · rfl
  · dsimp only
    split <;> rfl

lemma composeTextDrawOps_fills (args : TextArgs) :
    ∀ op ∈ composeTextDrawOps args,
      (op.isShadow = false → op.fill = args.color) ∧
      (op.isShadow = true → args.shadow = some op.fill) ∧
      (∀ st, args.stroke = some st → 0 < max 0 (min args.stroke_width 20) →
        op.strokeFill = some st) := by
  intro op hop
  rw [composeTextDrawOps, List.mem_append, List.mem_singleton] at hop
  rcases hop with hop | rfl
  · unfold shadowOpsOf at hop
    rcases hsh : args.shadow with _ | sh
    · rw [hsh] at hop
      simp at hop
    · rw [hsh] at hop
      by_cases hoff : args.shadow_offset ≠ (0, 0)
      · simp only [if_pos hoff, List.mem_singleton] at hop
        subst hop
        refine ⟨?_, ?_, ?_⟩
        · intro hfalse
          simp at hfalse
        · intro _
          rfl
        · intro st hst hsw
          show some (match args.stroke with | none => sh | some st' => st') = some st
          rw [hst]
      · simp only [if_neg hoff] at hop
        simp at hop
  · refine ⟨fun _ => mainOpOf_fill args, ?_, ?_⟩
    · intro htrue
      rw [mainOpOf_isShadow args] at htrue
      cases htrue
    · intro st hst hsw
      rw [mainOpOf_strokeFill, hst]
      dsimp only
      rw [if_pos hsw]

end HelperLemmas

section Claims

/-- C1: for every base size, overlay size, margin and nine-grid preset, when
the overlay fits inside the margin band (`ow + 2*mx ≤ bw`, `oh + 2*my ≤ bh`),
`calc_position` keeps the overlay's bounding box within
`[margin, base - margin]` on both axes; in particular for base 1000 by 800,
preset `bottom_right`, margin (10, 10) the anchor is exactly
`(1000 - overlay_w - 10, 800 - overlay_h - 10)`. -/
theorem calc_position_preset_within_band
    (bw bh ow oh mx my ow2 oh2 : Int) (k : String)
    (hk : k ∈ ninePresetKeys)
    (hx : ow + 2 * mx ≤ bw) (hy : oh + 2 * my ≤ bh) :
    (mx ≤ (calc_position (bw, bh) (ow, oh) (some k) none (mx, my)).1 ∧
      (calc_position (bw, bh) (ow, oh) (some k) none (mx, my)).1 + ow ≤ bw - mx ∧
      my ≤ (calc_position (bw, bh) (ow, oh) (some k) none (mx, my)).2 ∧
      (calc_position (bw, bh) (ow, oh) (some k) none (mx, my)).2 + oh ≤ bh - my) ∧
    calc_position (1000, 800) (ow2, oh2) (some "bottom_right") none (10, 10)
      = (1000 - ow2 - 10, 800 - oh2 - 10) := by
  constructor
  · have H : ∀ pq : ℚ × ℚ,
        mx ≤ presetCoord bw ow mx pq.1 ∧ presetCoord bw ow mx pq.1 + ow ≤ bw - mx ∧
        my ≤ presetCoord bh oh my pq.2 ∧ presetCoord bh oh my pq.2 + oh ≤ bh - my :=
      fun pq => ⟨(presetCoord_in_band bw ow mx pq.1 hx).1,
        (presetCoord_in_band bw ow mx pq.1 hx).2,
        (presetCoord_in_band bh oh my pq.2 hy).1,
        (presetCoord_in_band bh oh my pq.2 hy).2⟩
    fin_cases hk
    · rw [calc_position_preset_eq bw bh ow oh mx my "top_left" (0, 0) rfl]
      exact H (0, 0)
    · rw [calc_position_preset_eq bw bh ow oh mx my "top_center" (1/2, 0) rfl]
      exact H (1/2, 0)
    · rw [calc_position_preset_eq bw bh ow oh mx my "top_right" (1, 0) rfl]
      exact H (1, 0)
    · rw [calc_position_preset_eq bw bh ow oh mx my "center_left" (0, 1/2) rfl]
      exact H (0, 1/2)
    · rw [calc_position_preset_eq bw bh ow oh mx my "center" (1/2, 1/2) rfl]
      exact H (1/2, 1/2)
    · rw [calc_position_preset_eq bw bh ow oh mx my "center_right" (1, 1/2) rfl]
      exact H (1, 1/2)
    · rw [calc_position_preset_eq bw bh ow oh mx my "bottom_left" (0, 1) rfl]
      exact H (0, 1)
    · rw [calc_position_preset_eq bw bh ow oh mx my "bottom_center" (1/2, 1) rfl]
      exact H (1/2, 1)
    · rw [calc_position_preset_eq bw bh ow oh mx my "bottom_right" (1, 1) rfl]
      exact H (1, 1)
  · rw [calc_position_preset_eq 1000 800 ow2 oh2 10 10 "bottom_right" (1, 1) rfl]
    dsimp only
    unfold presetCoord
    simp only [if_neg (show ¬(1 : ℚ) = 0 by norm_num),
      if_neg (show ¬(1 : ℚ) = 1/2 by norm_num), if_pos (rfl : (1 : ℚ) = 1), ite_true]

/-- C1 witness: the preset bound and the bottom-right anchor at concrete
sizes. -/
theorem calc_position_preset_within_band_witness :
    (10 ≤ (calc_position (100, 100) (30, 30) (some "center") none (10, 10)).1) ∧
    calc_position (1000, 800) (40, 20) (some "bottom_right") none (10, 10)
      = (1000 - 40 - 10, 800 - 20 - 10) :=
  ⟨((calc_position_preset_within_band 100 100 30 30 10 10 40 20 "center"
      (by decide) (by decide) (by decide)).1).1,
    (calc_position_preset_within_band 100 100 30 30 10 10 40 20 "center"
      (by decide) (by decide) (by decide)).2⟩

/-- C2 counterexample: with base 100 by 100, overlay 200 by 200, margin
(10, 10) and manual offset (0, 0), `calc_position` returns (10, 10), and the
overlay's bounding box reaches 210 > 90 = base - margin: contrary to the
claim, the overlay extends past the margin band (the clamp range is empty
when the overlay is wider than the band). -/
theorem calc_position_manual_escapes_band :
    calc_position (100, 100) (200, 200) none (some (0, 0)) (10, 10) = (10, 10) ∧
    ¬((calc_position (100, 100) (200, 200) none (some (0, 0)) (10, 10)).1 + 200
        ≤ 100 - 10) := by
  decide

/-- C2 (amended): for every manual offset the returned coordinates are
exactly the clamp formula, and re-resolving an already-resolved position
returns it unchanged; when the margins are nonnegative and the overlay fits
inside the margin band, the result lies in
`[margin, base - overlay - margin]` on both axes and the overlay never
extends past the margin band. -/
theorem calc_position_manual_clamp
    (bw bh ow oh mx my px py : Int) (pk : Option String) :
    calc_position (bw, bh) (ow, oh) pk (some (px, py)) (mx, my)
      = (clamp px mx (max 0 (bw - ow - mx)), clamp py my (max 0 (bh - oh - my))) ∧
    calc_position (bw, bh) (ow, oh) pk
        (some (calc_position (bw, bh) (ow, oh) pk (some (px, py)) (mx, my))) (mx, my)
      = calc_position (bw, bh) (ow, oh) pk (some (px, py)) (mx, my) ∧
    (0 ≤ mx → 0 ≤ my → ow + 2 * mx ≤ bw → oh + 2 * my ≤ bh →
      mx ≤ (calc_position (bw, bh) (ow, oh) pk (some (px, py)) (mx, my)).1 ∧
      (calc_position (bw, bh) (ow, oh) pk (some (px, py)) (mx, my)).1 ≤ bw - ow - mx ∧
      (calc_position (bw, bh) (ow, oh) pk (some (px, py)) (mx, my)).1 + ow ≤ bw - mx ∧
      my ≤ (calc_position (bw, bh) (ow, oh) pk (some (px, py)) (mx, my)).2 ∧
      (calc_position (bw, bh) (ow, oh) pk (some (px, py)) (mx, my)).2 ≤ bh - oh - my ∧
      (calc_position (bw, bh) (ow, oh) pk (some (px, py)) (mx, my)).2 + oh ≤ bh - my) := by
  refine ⟨rfl, ?_, ?_⟩
  · show (clamp (clamp px mx (max 0 (bw - ow - mx))) mx (max 0 (bw - ow - mx)),
        clamp (clamp py my (max 0 (bh - oh - my))) my (max 0 (bh - oh - my)))
      = (clamp px mx (max 0 (bw - ow - mx)), clamp py my (max 0 (bh - oh - my)))
    rw [clamp_idem, clamp_idem]
  · intro h1 h2 h3 h4
    have e1 : (calc_position (bw, bh) (ow, oh) pk (some (px, py)) (mx, my)).1
        = clamp px mx (max 0 (bw - ow - mx)) := rfl
    have e2 : (calc_position (bw, bh) (ow, oh) pk (some (px, py)) (mx, my)).2
        = clamp py my (max 0 (bh - oh - my)) := rfl
    rw [e1, e2]
    unfold clamp
    omega

/-- C2 witness: the clamp formula and the band containment at a concrete
out-of-range manual offset. -/
theorem calc_position_manual_clamp_witness :
    calc_position (100, 100) (30, 30) none (some (500, -7)) (10, 10)
      = (clamp 500 10 (max 0 (100 - 30 - 10)), clamp (-7) 10 (max 0 (100 - 30 - 10))) ∧
    10 ≤ (calc_position (100, 100) (30, 30) none (some (500, -7)) (10, 10)).1 :=
  ⟨(calc_position_manual_clamp 100 100 30 30 10 10 500 (-7) none).1,
    ((calc_position_manual_clamp 100 100 30 30 10 10 500 (-7) none).2.2
      (by decide) (by decide) (by decide) (by decide)).1⟩

/-- C3: the opacity lookup table `alpha' = int(clamp(alpha * opacity, 0, 255))`
is monotone in the opacity, and opacity 1 reproduces every alpha value of the
0..255 domain exactly. -/
theorem enhanceLut_monotone_identity (o1 o2 : ℚ) (i : ℕ) :
    (o1 < o2 → enhanceLut o1 i ≤ enhanceLut o2 i) ∧
    (i ≤ 255 → enhanceLut 1 i = (i : Int)) := by
  constructor
  · intro h
    unfold enhanceLut
    have hmul : (i : ℚ) * o1 ≤ (i : ℚ) * o2 :=
      mul_le_mul_of_nonneg_left h.le (by positivity)
    have hc : clamp ((i : ℚ) * o1) 0 255 ≤ clamp ((i : ℚ) * o2) 0 255 :=
      max_le_max le_rfl (min_le_min le_rfl hmul)
    have hnn : (0 : ℚ) ≤ clamp ((i : ℚ) * o1) 0 255 := le_max_left _ _
    have hnn2 : (0 : ℚ) ≤ clamp ((i : ℚ) * o2) 0 255 := le_max_left _ _
    rw [pyint_of_nonneg hnn, pyint_of_nonneg hnn2]
    exact Int.floor_le_floor hc
  · intro h
    unfold enhanceLut clamp
    rw [mul_one, min_eq_right (by exact_mod_cast h),
      max_eq_right (by positivity)]
    have he : pyint (((i : Int) : ℚ)) = (i : Int) := pyint_intCast _
    simpa using he

/-- C3 witness: monotonicity at opacities 1/2 < 3/4 and exact reproduction at
opacity 1, both at alpha value 100. -/
theorem enhanceLut_monotone_identity_witness :
    enhanceLut (1/2) 100 ≤ enhanceLut (3/4) 100 ∧ enhanceLut 1 100 = (100 : Int) :=
  ⟨(enhanceLut_monotone_identity (1/2) (3/4) 100).1 (by norm_num),
    (enhanceLut_monotone_identity (1/2) (3/4) 100).2 (by norm_num)⟩

/-- C4 counterexample: at a stroke-covered pixel with stroke alpha 255 and
opacity 1/2, the pre-multiplication path leaves alpha 255 while the
post-scaling path yields 127: the difference is 128, far beyond the claimed
one rounding unit of agreement, refuting the claim for stroke pixels. -/
theorem opacity_paths_disagree_on_stroke :
    opPartAlpha (mainOpOf (premultColor argsCex (1/2))) true = some 255 ∧
    opPartAlpha (mainOpOf argsCex) true = some 255 ∧
    pathB_alpha (1/2) 255 = 127 ∧ 1 < |255 - pathB_alpha (1/2) 255| := by
  have hB : pathB_alpha (1/2) 255 = 127 := by
    unfold pathB_alpha enhanceLut
    have ht : (((255 : Int).toNat : ℚ)) * (1/2) = 255/2 := by
      norm_num [show (255 : Int).toNat = 255 from rfl]
    rw [ht]
    unfold clamp
    rw [min_eq_right (by norm_num), max_eq_right (by norm_num)]
    exact pyint_eq (by norm_num) (by norm_num) (by norm_num)
  refine ⟨rfl, rfl, hB, ?_⟩
  rw [hB]
  decide

/-- C4 (amended): the two opacity-application paths agree exactly (hence
within one rounding unit) at pixels covered by the main text fill when the
supplied fill alpha is 255; the pre-multiplication path forwards stroke and
shadow colors unscaled (its draw calls differ from the unmultiplied render
only in the fill color), which is why stroke- and shadow-covered pixels can
differ by up to the unscaled alpha, as the counterexample shows. -/
theorem opacity_paths_agree_on_main_fill (args : TextArgs) (o : ℚ)
    (h0 : 0 ≤ o) (h1 : o ≤ 1) (ha : args.color.a = 255) :
    (mainOpOf (premultColor args o)).fill.a = pathB_alpha o ((mainOpOf args).fill.a) ∧
    (mainOpOf (premultColor args o)).strokeFill = (mainOpOf args).strokeFill ∧
    shadowOpsOf (premultColor args o) = shadowOpsOf args ∧
    pathA_ops args o = composeTextDrawOps (premultColor args o) := by
  refine ⟨?_, ?_, ?_, rfl⟩
  · rw [mainOpOf_fill, mainOpOf_fill, premultColor_color_a, ha]
    unfold pathB_alpha enhanceLut
    have ht : (((255 : Int).toNat : ℚ)) = 255 := by
      norm_num [show (255 : Int).toNat = 255 from rfl]
    rw [ht]
    unfold clamp
    rw [min_eq_right (by linarith), max_eq_right (by linarith)]
  · rw [mainOpOf_strokeFill, mainOpOf_strokeFill, premultColor_stroke,
      premultColor_stroke_width]
  · unfold shadowOpsOf
    rw [premultColor_shadow, premultColor_shadow_offset, premultColor_stroke,
      premultColor_stroke_width]

/-- C4 witness: the main-fill agreement at opacity 1/2 on the concrete
stroke-bearing arguments. -/
theorem opacity_paths_agree_on_main_fill_witness :
    (mainOpOf (premultColor argsCex (1/2))).fill.a
      = pathB_alpha (1/2) ((mainOpOf argsCex).fill.a) :=
  (opacity_paths_agree_on_main_fill argsCex (1/2) (by norm_num) (by norm_num) rfl).1

/-- C5: an angle that is 0 modulo 360 makes `rotate_image_rgba` return its
input unchanged, and both it and the `apply_watermark` rotation guard invoke
the PIL rotation only when the angle is nonzero modulo 360. -/
theorem rotate_mod360_identity (P : PILOps) (img : Image) (a : ℚ) :
    (pyfmod a 360 = 0 → rotate_image_rgba P img a = img ∧ rotStep P a img = img) ∧
    (pyfmod a 360 ≠ 0 → rotate_image_rgba P img a = P.rotateExpand img a ∧
      rotStep P a img = P.rotateExpand img a) := by
  constructor
  · intro h
    constructor
    · unfold rotate_image_rgba
      rw [if_pos h]
    · unfold rotStep
      rw [if_neg (not_not_intro h)]
  · intro h
    constructor
    · unfold rotate_image_rgba
      rw [if_neg h]
    · unfold rotStep
      rw [if_pos h]
      unfold rotate_image_rgba
      rw [if_neg h]

/-- C5 witness: rotating by 360 degrees is the identity on a concrete
canvas. -/
theorem rotate_mod360_identity_witness :
    rotate_image_rgba modelOps demoImg 360 = demoImg ∧
    rotStep modelOps 360 demoImg = demoImg :=
  (rotate_mod360_identity modelOps demoImg 360).1 (by norm_num [pyfmod])

/-- C6: a manual offset supplied with a positive preview scale factor is
divided by the factor with integer truncation before position resolution,
the position resolver receives exactly the converted offset, and with no
scale factor the offset is used as-is. -/
theorem manual_offset_preview_scale (P : PILOps) (base : Image) (s : Settings)
    (psf : Option ℚ) (x y : Int) (σ : ℚ) :
    ((applyWatermarkTrace P base s psf).manualResolved = resolvedManual s psf) ∧
    (s.manual_pos_px = some (x, y) → psf = some σ → 0 < σ →
      resolvedManual s psf = some (pyint ((x : ℚ) / σ), pyint ((y : ℚ) / σ))) ∧
    resolvedManual s none = s.manual_pos_px ∧
    (s.type.getD "text" = "text" →
      (applyWatermarkTrace P base s psf).posUsed = some (calc_position
        ((P.convertRGBA base).width, (P.convertRGBA base).height)
        ((rotStep P (s.rotation_deg.getD 0) (textWm P s)).width,
          (rotStep P (s.rotation_deg.getD 0) (textWm P s)).height)
        s.position_preset (resolvedManual s psf) (s.margin.getD (10, 10)))) := by
  refine ⟨applyWatermarkTrace_manualResolved P base s psf, ?_, ?_, ?_⟩
  · intro hm hpsf hσ
    subst hpsf
    unfold resolvedManual
    rw [hm]
    show (if 0 < σ then some (pyint ((x : ℚ) / σ), pyint ((y : ℚ) / σ)) else some (x, y))
      = some (pyint ((x : ℚ) / σ), pyint ((y : ℚ) / σ))
    rw [if_pos hσ]
  · rcases hm : s.manual_pos_px with _ | mp
    · unfold resolvedManual
      rw [hm]
    · unfold resolvedManual
      rw [hm]
  · intro ht
    unfold applyWatermarkTrace
    rw [if_pos ht]
    rfl

/-- C6 witness: the manual offset (101, 51) at preview scale 2 resolves to
the truncated conversion (int(101/2), int(51/2)). -/
theorem manual_offset_preview_scale_witness :
    resolvedManual sManual (some 2) = some (pyint ((101 : ℚ) / 2), pyint ((51 : ℚ) / 2)) :=
  (manual_offset_preview_scale modelOps demoImg sManual (some 2) 101 51 2).2.1
    rfl rfl (by norm_num)

/-- C7 counterexample: a resize request of percent 1/1000 on the 1000 by 800
image is clamped to 1/100 by the code and yields width 10, not
`max(1, int(1000 * (1/1000))) = 1` as the claim's formula demands. -/
theorem resize_percent_clamped_cex :
    (apply_resize modelOps demo1000
        { width := none, height := none, percent := some (1/1000) }).width = 10 ∧
    max 1 (pyint ((1000 : ℚ) * (1/1000))) = 1 ∧
    (apply_resize modelOps demo1000
        { width := none, height := none, percent := some (1/1000) }).width
      ≠ max 1 (pyint ((1000 : ℚ) * (1/1000))) := by
  have h2 : pyint ((1000 : ℚ) * (1/1000)) = 1 := by
    have he : ((1000 : ℚ) * (1/1000)) = 1 := by norm_num
    rw [he]
    exact pyint_eq (by norm_num) (by norm_num) (by norm_num)
  have h1 : (apply_resize modelOps demo1000
      { width := none, height := none, percent := some (1/1000) }).width = 10 := by
    unfold apply_resize
    show (if (1/1000 : ℚ) ≠ 0 then
        modelOps.resizeImg demo1000
          (max 1 (pyint ((demo1000.width : ℚ) * max (1/100) (1/1000))),
            max 1 (pyint ((demo1000.height : ℚ) * max (1/100) (1/1000))))
      else apply_resize_wh modelOps demo1000
        { width := none, height := none, percent := some (1/1000) }).width = 10
    rw [if_pos (show (1/1000 : ℚ) ≠ 0 by norm_num)]
    have hm : max (1/100 : ℚ) (1/1000) = 1/100 := max_eq_left (by norm_num)
    rw [hm]
    have hw : pyint ((demo1000.width : ℚ) * (1/100)) = 10 := by
      have he : ((demo1000.width : ℚ) * (1/100)) = 10 := by norm_num [demo1000]
      rw [he]
      exact pyint_eq (by norm_num) (by norm_num) (by norm_num)
    rw [hw]
    rfl
  refine ⟨h1, ?_, ?_⟩
  · rw [h2]
    decide
  · rw [h1, h2]
    decide

/-- C7 (amended): a present nonzero percent takes precedence over width and
height and is clamped below by 0.01, so the output size is
`(max(1, int(w * max(0.01, p))), max(1, int(h * max(0.01, p))))`; percent 1/2
on a 1000 by 800 image yields exactly 500 by 400; and `export_image` applies
the resize to the composed result after watermark compositing. -/
theorem apply_resize_percent_precedence (P : PILOps) (img : Image) (ro : ResizeOpts)
    (p : ℚ) (base : Image) (s : Settings) (eo : ExportOpts) (psf : Option ℚ)
    (ro2 : ResizeOpts) :
    (ro.percent = some p → p ≠ 0 →
      apply_resize P img ro = P.resizeImg img
        (max 1 (pyint ((img.width : ℚ) * max (1/100) p)),
          max 1 (pyint ((img.height : ℚ) * max (1/100) p)))) ∧
    (ro.percent = some (1/2) → img.width = 1000 → img.height = 800 →
      (apply_resize P img ro).width = 500 ∧ (apply_resize P img ro).height = 400) ∧
    (eo.resize = some ro2 →
      export_image P base s eo psf
        = apply_resize P (applyWatermarkTrace P base s psf).result ro2) := by
  have hbranch : ∀ q : ℚ, ro.percent = some q → q ≠ 0 →
      apply_resize P img ro = P.resizeImg img
        (max 1 (pyint ((img.width : ℚ) * max (1/100) q)),
          max 1 (pyint ((img.height : ℚ) * max (1/100) q))) := by
    intro q hq hnz
    unfold apply_resize
    rw [hq]
    show (if q ≠ 0 then
        P.resizeImg img
          (max 1 (pyint ((img.width : ℚ) * max (1/100) q)),
            max 1 (pyint ((img.height : ℚ) * max (1/100) q)))
      else apply_resize_wh P img ro) = _
    rw [if_pos hnz]
  refine ⟨hbranch p, ?_, ?_⟩
  · intro hq hw hh
    rw [hbranch (1/2) hq (by norm_num)]
    have hmax : max (1/100 : ℚ) (1/2) = 1/2 := max_eq_right (by norm_num)
    have hwv : pyint ((img.width : ℚ) * max (1/100 : ℚ) (1/2)) = 500 := by
      rw [hmax, hw]
      have he : ((1000 : Int) : ℚ) * (1/2) = 500 := by norm_num
      rw [he]
      exact pyint_eq (by norm_num) (by norm_num) (by norm_num)
    have hhv : pyint ((img.height : ℚ) * max (1/100 : ℚ) (1/2)) = 400 := by
      rw [hmax, hh]
      have he : ((800 : Int) : ℚ) * (1/2) = 400 := by norm_num
      rw [he]
      exact pyint_eq (by norm_num) (by norm_num) (by norm_num)
    rw [hwv, hhv]
    have hr := P.resize_size img (max 1 500, max 1 400)
    constructor
    · rw [hr.1]
      decide
    · rw [hr.2]
      decide
  · intro hre
    unfold export_image exportImageTrace
    rw [hre]

/-- C7 witness: percent 1/2 on the concrete 1000 by 800 image yields exactly
500 by 400. -/
theorem apply_resize_percent_precedence_witness :
    (apply_resize modelOps demo1000
        { width := none, height := none, percent := some (1/2) }).width = 500 ∧
    (apply_resize modelOps demo1000
        { width := none, height := none, percent := some (1/2) }).height = 400 :=
  (apply_resize_percent_precedence modelOps demo1000
    { width := none, height := none, percent := some (1/2) } (1/2)
    demoImg {} {} none { width := none, height := none, percent := none }).2.1
    rfl rfl rfl

/-- C8: `apply_watermark` (and hence `export_image`) never mutates the
caller's base image: the base object is only read, and the returned image is
built by alpha-compositing into a copy of the RGBA-converted base, or is
that conversion itself on the early return. -/
theorem apply_watermark_never_mutates_base (P : PILOps) (base : Image) (s : Settings)
    (psf : Option ℚ) (eo : ExportOpts) :
    (applyWatermarkTrace P base s psf).baseAfter = base ∧
    (exportImageTrace P base s eo psf).baseAfter = base ∧
    ((∃ wm pos, (applyWatermarkTrace P base s psf).result
        = P.alphaCompositeInto (P.copyImg (P.convertRGBA base)) wm pos) ∨
      (applyWatermarkTrace P base s psf).result = P.convertRGBA base) := by
  refine ⟨applyWatermarkTrace_baseAfter P base s psf, ?_, ?_⟩
  · unfold exportImageTrace
    split <;> exact applyWatermarkTrace_baseAfter P base s psf
  · unfold applyWatermarkTrace
    split
    · exact Or.inl ⟨_, _, rfl⟩
    · split
      · exact Or.inr rfl
      · split
        · exact Or.inr rfl
        · exact Or.inl ⟨_, _, rfl⟩

/-- C9: on the text path the renderer's fill alpha is always
`int(255 * opacity)` regardless of the supplied color alpha, while the
stroke and shadow colors, alphas included, pass through unscaled into the
draw calls. -/
theorem text_path_opacity_routing (P : PILOps) (base : Image) (s : Settings)
    (psf : Option ℚ) (ht : s.type.getD "text" = "text") :
    (applyWatermarkTrace P base s psf).textArgs = some (textWatermarkArgs s) ∧
    (textWatermarkArgs s).color.a = pyint (255 * clamp (s.opacity.getD 1) 0 1) ∧
    (textWatermarkArgs s).stroke = s.stroke_rgba ∧
    (textWatermarkArgs s).shadow = s.shadow_rgba ∧
    (∀ op ∈ composeTextDrawOps (textWatermarkArgs s),
      (op.isShadow = false → op.fill.a = pyint (255 * clamp (s.opacity.getD 1) 0 1)) ∧
      (op.isShadow = true → s.shadow_rgba = some op.fill) ∧
      (∀ st, s.stroke_rgba = some st →
        0 < max 0 (min (s.stroke_width.getD 0) 20) → op.strokeFill = some st)) := by
  refine ⟨?_, rfl, rfl, rfl, ?_⟩
  · unfold applyWatermarkTrace
    rw [if_pos ht]
    rfl
  · intro op hop
    have h := composeTextDrawOps_fills (textWatermarkArgs s) op hop
    refine ⟨fun hf => ?_, h.2.1, h.2.2⟩
    rw [h.1 hf]
    rfl

/-- C9 witness: on concrete settings with stroke and shadow, the fill alpha
equals `int(255 * opacity)` and the stroke color passes through. -/
theorem text_path_opacity_routing_witness :
    (textWatermarkArgs sText).color.a = pyint (255 * clamp (sText.opacity.getD 1) 0 1) ∧
    (textWatermarkArgs sText).stroke = sText.stroke_rgba :=
  ⟨(text_path_opacity_routing modelOps demoImg sText none rfl).2.1,
    (text_path_opacity_routing modelOps demoImg sText none rfl).2.2.1⟩

/-- C10: an image-watermark call whose watermark path is absent, empty, or
names no existing file returns the RGBA-converted base image: no position is
resolved, no renderer arguments are built, no rotation or compositing
happens. -/
theorem missing_image_path_returns_base (P : PILOps) (base : Image) (s : Settings)
    (psf : Option ℚ) (ht : s.type.getD "text" ≠ "text")
    (hm : ∀ p, s.wm_image_path = some p → p = "" ∨ P.fileExists p = false) :
    (applyWatermarkTrace P base s psf).result = P.convertRGBA base ∧
    (applyWatermarkTrace P base s psf).posUsed = none ∧
    (applyWatermarkTrace P base s psf).textArgs = none := by
  unfold applyWatermarkTrace
  rw [if_neg ht]
  split
  · exact ⟨rfl, rfl, rfl⟩
  · rename_i p hp
    split
    · exact ⟨rfl, rfl, rfl⟩
    · rename_i hcond
      exact absurd (hm p hp) hcond

/-- C10 witness: an image-type call with no watermark path returns the
converted base on the concrete model. -/
theorem missing_image_path_returns_base_witness :
    (applyWatermarkTrace modelOps demoImg sImageMissing none).result
      = modelOps.convertRGBA demoImg :=
  (missing_image_path_returns_base modelOps demoImg sImageMissing none (by decide)
    (fun p hp => Option.noConfusion hp)).1

end Claims

end WatermarkEngine
